import Mathlib

/-!
Verification development for the Signal-Equalizer front-end.

Shallow embedding of the repository's JavaScript/React sources:
  * `src/my-react-app/src/components/AudioSeparation.jsx` — stem mixing,
    mute/solo handling (two concatenated variants exist only of
    FourierTransform.jsx; AudioSeparation.jsx is single).
  * `src/my-react-app/src/components/FourierTransform.jsx` — local DFT,
    spectrum normalization and audiogram axis mapping (two variants: the
    client-side-buffer variant, called V1 below, and the backend-FFT-data
    variant, called V2 below).
  * `src/my-react-app/src/components/EqualizerControls.jsx` — debounced
    slider handling and band-list construction.
  * `src/unnamed/part_000` (the application root component) — custom-band
    persistence, reset, and the equalizer-change handler.

JavaScript numbers are modelled as ℚ wherever the code only does field
arithmetic and comparisons, and as ℝ where transcendental functions
(cos, sin, sqrt, log10) appear.  JavaScript `undefined`/`null` are
modelled with `Option`.
-/

namespace SignalEq

/-! ## Audio buffers and separated tracks (AudioSeparation.jsx) -/

/-- A decoded Web-Audio `AudioBuffer`: sample rate, channel count, frame
count and per-channel PCM data (`data[ch][i]`). -/
structure AudioBuf where
  sampleRate : ℕ
  numberOfChannels : ℕ
  length : ℕ
  data : List (List ℚ)
  deriving Repr, DecidableEq

/-- `buffer.getChannelData(ch)`; an out-of-range channel is never requested
by the claims (JS would throw there). -/
def AudioBuf.getChannelData (b : AudioBuf) (ch : ℕ) : List ℚ :=
  b.data.getD ch []

/-- Reading `channelData[i]`; reads past the end (which in JS give
`undefined`) are modelled as 0 and never exercised by the claims. -/
def sampleAt (chan : List ℚ) (i : ℕ) : ℚ :=
  chan.getD i 0

/-- A separated stem as held in `separatedTracks` state
(AudioSeparation.jsx): `{id, name, audioBuffer, gain, muted, solo}`. -/
structure Track where
  id : String
  audioBuffer : Option AudioBuf
  gain : ℚ
  muted : Bool
  solo : Bool
  deriving Repr, DecidableEq

/-- JS `track.gain || 1.0` (AudioSeparation.jsx line 88): `0` is falsy in
JS, so a gain of exactly 0 is replaced by 1.0. -/
def jsGainOr1 (g : ℚ) : ℚ :=
  if g = 0 then 1 else g

/-- The `outputData[i] += channelData[i] * gain` loop (AudioSeparation.jsx
lines 89-91): adds one track's channel into the accumulator, which always
has exactly `length` entries. -/
def addTrackSamples (out : List ℚ) (chData : List ℚ) (gain : ℚ) (length : ℕ) : List ℚ :=
  (List.range length).map (fun i => out.getD i 0 + chData.getD i 0 * gain)

/-- The body of the `activeTracks.forEach` callback (AudioSeparation.jsx
lines 85-93) for channel `ch`: a track with a buffer and `!track.muted` is
added into the accumulator with `track.gain || 1.0`, any other is skipped. -/
def mixStep (ch length : ℕ) (out : List ℚ) (t : Track) : List ℚ :=
  match t.audioBuffer with
  | some b => if !t.muted then addTrackSamples out (b.getChannelData ch) (jsGainOr1 t.gain) length else out
  | none => out

/-- The per-channel accumulation of the mixing `useEffect` (AudioSeparation.jsx
lines 83-94): a zero-filled channel of `createBuffer`, then each active
track is folded in by `mixStep`. -/
def mixChannel (activeTracks : List Track) (ch : ℕ) (length : ℕ) : List ℚ :=
  activeTracks.foldl (mixStep ch length) (List.replicate length 0)

/-- One unmuted track's contribution to output sample `(ch, i)` as the inner
`forEach` body computes it: `channelData[i] * (track.gain || 1.0)` when the
track has a buffer and is not muted, nothing otherwise. -/
def mixContribution (t : Track) (ch i : ℕ) : ℚ :=
  match t.audioBuffer with
  | some b => if t.muted then 0 else sampleAt (b.getChannelData ch) i * jsGainOr1 t.gain
  | none => 0

/-- The body of the mixing `useEffect` (AudioSeparation.jsx lines 69-98)
once its `stage === 'separated' && separatedTracks.length > 0` guard has
passed: filter out muted tracks; if none remain, or the first remaining
track has no buffer, return without touching the output; otherwise build a
fresh buffer shaped like the first active track's and accumulate every
active track into it.  `prev` is the output buffer from before this run. -/
def mixTracks (separatedTracks : List Track) (prev : Option AudioBuf) : Option AudioBuf :=
  match separatedTracks.filter (fun t => !t.muted) with
  | [] => prev
  | t0 :: rest =>
    match t0.audioBuffer with
    | none => prev
    | some b0 =>
      some { sampleRate := b0.sampleRate
             numberOfChannels := b0.numberOfChannels
             length := b0.length
             data := (List.range b0.numberOfChannels).map
               (fun ch => mixChannel (t0 :: rest) ch b0.length) }

/-- The separation workflow stage (`'initial' | 'separating' | 'separated'`). -/
inductive SepStage where
  | initial
  | separating
  | separated
  deriving Repr, DecidableEq

/-- The whole mixing `useEffect` including its guard (AudioSeparation.jsx
line 70); the always-initialized `audioContextRef` is not modelled. -/
def mixEffect (stage : SepStage) (separatedTracks : List Track) (prev : Option AudioBuf) :
    Option AudioBuf :=
  if stage = SepStage.separated ∧ separatedTracks ≠ [] then
    mixTracks separatedTracks prev
  else prev

/-- `handleSoloToggle` (AudioSeparation.jsx lines 211-218): flips the solo
flag of the track with the given id. -/
def handleSoloToggle (trackId : String) (ts : List Track) : List Track :=
  ts.map (fun t => if t.id = trackId then { t with solo := !t.solo } else t)

/-- The fields of a track that the mixing effect actually reads: id kept for
completeness, buffer, gain and muted — everything except `solo`. -/
def stripSolo (t : Track) : String × Option AudioBuf × ℚ × Bool :=
  (t.id, t.audioBuffer, t.gain, t.muted)

/-- `mixContribution` factored through `stripSolo`: the mixer's per-track
arithmetic as a function of the solo-free fields only. -/
def mixContributionKey (key : String × Option AudioBuf × ℚ × Bool) (ch i : ℕ) : ℚ :=
  match key.2.1 with
  | some b => if key.2.2.2 then 0 else sampleAt (b.getChannelData ch) i * jsGainOr1 key.2.2.1
  | none => 0

/-- The claim's (and spec §4.3's) mixing formula, stated from its words for
comparison with the code: per sample, the sum over unmuted stems of
`stemSample × stemGain` (a stem without a buffer contributes nothing). -/
def specMixSample (tracks : List Track) (ch i : ℕ) : ℚ :=
  ((tracks.filter (fun t => !t.muted)).map (fun t =>
    match t.audioBuffer with
    | some b => sampleAt (b.getChannelData ch) i * t.gain
    | none => 0)).sum

/-- Example fixture: a 1-channel, 2-frame buffer. -/
def exBufA : AudioBuf :=
  { sampleRate := 44100, numberOfChannels := 1, length := 2, data := [[1, 2]] }

/-- Example fixture: a second 1-channel, 2-frame buffer. -/
def exBufB : AudioBuf :=
  { sampleRate := 44100, numberOfChannels := 1, length := 2, data := [[3, 5]] }

/-- Example fixture: an unmuted stem with `exBufA`. -/
def exTrackA : Track :=
  { id := "drums", audioBuffer := some exBufA, gain := 1, muted := false, solo := false }

/-- Example fixture: an unmuted stem with `exBufB`. -/
def exTrackB : Track :=
  { id := "bass", audioBuffer := some exBufB, gain := 1, muted := false, solo := false }

/-- Example fixture: a muted stem. -/
def exTrackMuted : Track :=
  { id := "vocals", audioBuffer := some exBufA, gain := 1, muted := true, solo := false }

/-- Example fixture: a 1-channel, 4-frame buffer for the DFT witness. -/
def exDftBuf : AudioBuf :=
  { sampleRate := 8, numberOfChannels := 1, length := 4, data := [[0, 0, 0, 0]] }

/-! ## Equalizer control panel (EqualizerControls.jsx) -/

/-- One entry of the App's custom band list.  The code defensively accepts
either `{low, high}` or `{startFreq, endFreq}` field names
(EqualizerControls.jsx lines 116-117); the App itself creates
`{startFreq, endFreq, gain}` objects. -/
structure CustomBand where
  low : Option ℚ
  high : Option ℚ
  startFreq : Option ℚ
  endFreq : Option ℚ
  gain : ℚ
  deriving Repr, DecidableEq

instance : Inhabited CustomBand := ⟨⟨none, none, none, none, 1⟩⟩

/-- A band as sent to the backend: `{low, high, gain}`. -/
structure Band where
  low : ℚ
  high : ℚ
  gain : ℚ
  deriving Repr, DecidableEq

/-- The equalizer mode selected in the sidebar. -/
inductive EqMode where
  | generic
  | music
  | animal
  | human
  deriving Repr, DecidableEq

/-- The fixed preset ranges of `handleSliderChange` for music mode
(EqualizerControls.jsx lines 126-133). -/
def musicRanges : List (ℚ × ℚ) :=
  [(60, 200), (80, 250), (200, 800), (250, 4000), (300, 3500), (500, 8000)]

/-- The fixed preset ranges for animal mode (lines 138-145). -/
def animalRanges : List (ℚ × ℚ) :=
  [(500, 1000), (600, 1500), (1000, 8000), (20, 200), (15, 100), (400, 800)]

/-- The fixed preset ranges for human mode (lines 150-157). -/
def humanRanges : List (ℚ × ℚ) :=
  [(85, 180), (165, 255), (250, 400), (85, 180), (165, 255), (80, 200)]

/-- `customBands[idx]?.low !== undefined ? customBands[idx].low :
(customBands[idx]?.startFreq || 0)` (line 116); JS `0 || 0 = 0`. -/
def jsLowOf (b : CustomBand) : ℚ :=
  match b.low with
  | some q => q
  | none => b.startFreq.getD 0

/-- `customBands[idx]?.high !== undefined ? customBands[idx].high :
(customBands[idx]?.endFreq || 20000)` (line 117); JS `0 || 20000 = 20000`. -/
def jsHighOf (b : CustomBand) : ℚ :=
  match b.high with
  | some q => q
  | none =>
    match b.endFreq with
    | some q => if q = 0 then 20000 else q
    | none => 20000

/-- The band list built inside the debounce callback (EqualizerControls.jsx
lines 111-168): one band per label (`labels = customBands` in generic mode,
six fixed labels otherwise), each pairing its fixed or custom frequency
range with `currentValues[idx]`, the gain read from `latestValuesRef` at
fire time.  Indices are in range in every reachable state; the JS
`undefined` of an out-of-range read is modelled as 0. -/
def buildBands (mode : EqMode) (customBands : List CustomBand) (currentValues : List ℚ) :
    List Band :=
  match mode with
  | EqMode.generic =>
    (List.range customBands.length).map (fun idx =>
      let b := customBands.getD idx default
      { low := jsLowOf b, high := jsHighOf b, gain := currentValues.getD idx 0 })
  | EqMode.music =>
    (List.range 6).map (fun idx =>
      let r := musicRanges.getD idx (0, 20000)
      { low := r.1, high := r.2, gain := currentValues.getD idx 0 })
  | EqMode.animal =>
    (List.range 6).map (fun idx =>
      let r := animalRanges.getD idx (0, 20000)
      { low := r.1, high := r.2, gain := currentValues.getD idx 0 })
  | EqMode.human =>
    (List.range 6).map (fun idx =>
      let r := humanRanges.getD idx (0, 20000)
      { low := r.1, high := r.2, gain := currentValues.getD idx 0 })

/-- The control panel's observable state: the slider values (`values`,
mirrored into `latestValuesRef`), whether a debounce timer is armed
(`debounceTimerRef` holds an unfired timeout), and the list of
`onEqualizerChange` invocations made so far, oldest first. -/
structure EqPanelState where
  values : List ℚ
  pending : Bool
  calls : List (List Band)
  deriving Repr, DecidableEq

/-- `Math.max(0, Math.min(2, newValue))` (EqualizerControls.jsx line 78). -/
def clampGain (v : ℚ) : ℚ :=
  max 0 (min 2 v)

/-- One slider movement, `handleSliderChange` (EqualizerControls.jsx lines
77-182): clamp, write the value (state and `latestValuesRef`), and — when
an audio file and the `onEqualizerChange` callback are present — clear any
pending debounce timer and arm a fresh one.  The armed timer is a single
slot: arming again is exactly JS `clearTimeout` + `setTimeout`. -/
def handleSliderChange (hasAudioFile : Bool) (st : EqPanelState) (index : ℕ) (newValue : ℚ) :
    EqPanelState :=
  let clampedValue := clampGain newValue
  let newValues := st.values.set index clampedValue
  if hasAudioFile then
    { values := newValues, pending := true, calls := st.calls }
  else
    { values := newValues, pending := st.pending, calls := st.calls }

/-- The debounce window elapsing with no further movement: the armed
callback fires once, reads `latestValuesRef.current` (the values at fire
time, not at arm time) and invokes `onEqualizerChange` with the band list
built from them (EqualizerControls.jsx lines 104-180).  With no armed
timer nothing happens. -/
def debounceElapse (mode : EqMode) (customBands : List CustomBand) (st : EqPanelState) :
    EqPanelState :=
  if st.pending then
    { values := st.values, pending := false,
      calls := st.calls ++ [buildBands mode customBands st.values] }
  else st

/-- A burst of slider movements, each arriving before the pending window
elapses (so each cancels and re-arms the timer). -/
def runMoves (hasAudioFile : Bool) (st : EqPanelState) (moves : List (ℕ × ℚ)) : EqPanelState :=
  moves.foldl (fun s m => handleSliderChange hasAudioFile s m.1 m.2) st

/-! ## Local DFT (FourierTransform.jsx V1, `generateFFTData`, lines 7-44) -/

/-- One clamped bound of JS `Array.prototype.slice`: a negative index counts
from the end (clamped at 0), a non-negative one is clamped at the length. -/
def jsSliceBound (len : ℕ) (k : ℤ) : ℕ :=
  if k < 0 then ((len : ℤ) + k).toNat else min k.toNat len

/-- JS `l.slice(s, e)`: the elements from the clamped start (inclusive) to
the clamped end (exclusive). -/
def jsSlice (l : List ℚ) (s e : ℤ) : List ℚ :=
  (l.drop (jsSliceBound l.length s)).take (jsSliceBound l.length e - jsSliceBound l.length s)

/-- The analysis window (FourierTransform.jsx lines 26-27):
`startSample = Math.floor((channelData.length - fftSize) / 2)` and
`channelData.slice(startSample, startSample + fftSize)`. -/
def analysisData (b : AudioBuf) (fftSize : ℕ) : List ℚ :=
  let channelData := b.getChannelData 0
  let startSample : ℤ := Int.fdiv ((channelData.length : ℤ) - (fftSize : ℤ)) 2
  jsSlice channelData startSample (startSample + (fftSize : ℤ))

/-- `frequencies[i] = (i * sampleRate) / fftSize` for `i < fftSize / 2`
(FourierTransform.jsx lines 16-23). -/
def fftFrequencies (sampleRate : ℚ) (fftSize : ℕ) : List ℚ :=
  (List.range (fftSize / 2)).map (fun (i : ℕ) => ((i : ℚ) * sampleRate) / ((fftSize : ℕ) : ℚ))

/-- `real = Σ analysisData[n]·cos(-2πkn/fftSize)` over
`n < Math.min(fftSize, analysisData.length)` (lines 34-37). -/
noncomputable def dftReal (xs : List ℚ) (fftSize k : ℕ) : ℝ :=
  ∑ n ∈ Finset.range (min fftSize xs.length),
    ((xs.getD n 0 : ℚ) : ℝ) * Real.cos ((-2) * Real.pi * (k : ℝ) * (n : ℝ) / (fftSize : ℝ))

/-- `imag = Σ analysisData[n]·sin(-2πkn/fftSize)` over the same range. -/
noncomputable def dftImag (xs : List ℚ) (fftSize k : ℕ) : ℝ :=
  ∑ n ∈ Finset.range (min fftSize xs.length),
    ((xs.getD n 0 : ℚ) : ℝ) * Real.sin ((-2) * Real.pi * (k : ℝ) * (n : ℝ) / (fftSize : ℝ))

/-- `magnitudes[k] = Math.sqrt(real*real + imag*imag) / fftSize` (line 40). -/
noncomputable def dftMagnitude (xs : List ℚ) (fftSize k : ℕ) : ℝ :=
  Real.sqrt (dftReal xs fftSize k * dftReal xs fftSize k +
    dftImag xs fftSize k * dftImag xs fftSize k) / (fftSize : ℝ)

/-- The record `generateFFTData` returns:
`{frequencies, magnitudes, sampleRate, fftSize, bufferLength}`. -/
structure FFTData where
  frequencies : List ℚ
  magnitudes : List ℝ
  sampleRate : ℚ
  fftSize : ℕ
  bufferLength : ℕ

/-- `generateFFTData(audioBuffer, fftSize)` (FourierTransform.jsx V1 lines
7-44) on a non-null buffer.  `bufferLength = fftSize / 2` is exact JS
division for the even sizes the component passes (always 2048); it is
modelled with natural floor division. -/
noncomputable def generateFFTData (b : AudioBuf) (fftSize : ℕ) : FFTData :=
  { frequencies := fftFrequencies (b.sampleRate : ℚ) fftSize
    magnitudes := (List.range (fftSize / 2)).map
      (fun k => dftMagnitude (analysisData b fftSize) fftSize k)
    sampleRate := (b.sampleRate : ℚ)
    fftSize := fftSize
    bufferLength := fftSize / 2 }

/-! ## Spectrum drawing (`drawSpectrum`, both FourierTransform.jsx variants) -/

/-- The audiogram-mode point filter of variant V1 (client-side buffers,
lines 156-174 and the analogous loops): `if (freq < 125) continue;` — only
frequencies below 125 Hz are skipped. -/
def audiogramKeepV1 (freq : ℚ) : Bool :=
  !(freq < 125)

/-- The audiogram-mode point filter of variant V2 (backend FFT data, lines
479-500 and the analogous loops): `if (freq < 125 || freq > 8000) continue;`. -/
def audiogramKeepV2 (freq : ℚ) : Bool :=
  !(freq < 125 || freq > 8000)

/-- The horizontal position of a kept audiogram point:
`padding.left + (Math.log10(freq/125) / Math.log10(8000/125)) * chartWidth`
with `padding = {left: 50, right: 15}` and `chartWidth = width - 50 - 15`
(identical in both variants). -/
noncomputable def audiogramX (width : ℝ) (freq : ℝ) : ℝ :=
  50 + (Real.logb 10 (freq / 125) / Real.logb 10 (8000 / 125)) * (width - 50 - 15)

/-- A stored spectrum as `drawSpectrum` reads it: parallel frequency and
magnitude arrays. -/
structure SpecData where
  frequencies : List ℚ
  magnitudes : List ℚ
  deriving Repr, DecidableEq

/-- JS `Math.max(...l)`; on an empty spread JS yields `-Infinity`, which no
claim exercises — modelled as 0. -/
def jsMathMax (l : List ℚ) : ℚ :=
  match l with
  | [] => 0
  | h :: t => t.foldl max h

/-- V1's normalization scale (line 144):
`Math.max(...inputMags, ...(outputMags || []))`. -/
def maxMagV1 (inputMags : List ℚ) (outputMags : Option (List ℚ)) : ℚ :=
  jsMathMax (inputMags ++ outputMags.getD [])

/-- Whether V1's `drawSpectrum` reaches its normalization
`inputMags.map(m => m / maxMag)` (lines 144-146): it returns early only
when `fftData` is null; there is no zero-magnitude guard, so an all-zero
spectrum is divided by `maxMag = 0` (NaN in JS). -/
def rendersNormalizationV1 (fftData : Option SpecData) : Bool :=
  fftData.isSome

/-- V2's normalization scale (lines 448-457): iterate `outputMags`, then
`inputMags` when input data is present, keeping the largest value seen,
starting from 0. -/
def maxMagV2 (outputMags : List ℚ) (inputMags : Option (List ℚ)) : ℚ :=
  (outputMags ++ inputMags.getD []).foldl (fun acc m => if m > acc then m else acc) 0

/-- What one call of V2's `drawSpectrum` does. -/
inductive DrawOutcome where
  | placeholder
  | skippedZeroMax
  | drawn
  deriving Repr, DecidableEq

/-- V2's `drawSpectrum` control flow (lines 397-462): placeholder text when
no output data; warn and return when `maxMag === 0`; otherwise normalize
and draw. -/
def drawSpectrumV2 (inputFftData outputFftData : Option SpecData) : DrawOutcome :=
  match outputFftData with
  | none => DrawOutcome.placeholder
  | some o =>
    if maxMagV2 o.magnitudes (inputFftData.map SpecData.magnitudes) = 0 then
      DrawOutcome.skippedZeroMax
    else DrawOutcome.drawn

/-! ## Application root (src/unnamed/part_000): custom-band persistence -/

/-- A JSON value as `JSON.parse` can produce it. -/
inductive JVal where
  | jnull
  | jbool (b : Bool)
  | jnum (q : ℚ)
  | jstr (s : String)
  | jarr (items : List JVal)
  | jobj (fields : List (String × JVal))
  deriving Repr

/-- JS truthiness of a parsed JSON value: `null`, `false`, `0` and `""` are
falsy; every array and object is truthy. -/
def jsTruthy : JVal → Bool
  | JVal.jnull => false
  | JVal.jbool b => b
  | JVal.jnum q => decide (q ≠ 0)
  | JVal.jstr s => decide (s ≠ "")
  | JVal.jarr _ => true
  | JVal.jobj _ => true

/-- JS `v.length > 0` on a parsed JSON value: array and string lengths, an
object's own `length` property when it is a number (JSON.parse keeps the
last duplicate key, hence the reversed lookup; a non-numeric `length`
property, which JS would coerce, is modelled as failing the comparison),
and `undefined > 0 === false` for everything else. -/
def jsLengthPos : JVal → Bool
  | JVal.jarr items => decide (0 < items.length)
  | JVal.jstr s => decide (0 < s.length)
  | JVal.jobj fields =>
    match fields.reverse.lookup "length" with
    | some (JVal.jnum q) => decide (0 < q)
    | _ => false
  | _ => false

/-- What reading the persisted `'equalizer-custom-bands'` localStorage key
gives: no key, the empty string (JS-falsy, so `JSON.parse` is never
reached), text that fails to parse (throws), or text parsing to a value. -/
inductive JsParse where
  | emptyStr
  | malformed
  | valid (v : JVal)
  deriving Repr

/-- A band object as `getInitialBands` creates it:
`{startFreq, endFreq, gain}` (part_000 lines 27-32). -/
structure AppBand where
  startFreq : ℚ
  endFreq : ℚ
  gain : ℚ
  deriving Repr, DecidableEq

/-- `getInitialBands()` (part_000 lines 27-32): four bands dividing
0-24000 Hz, each with gain 1. -/
def getInitialBands : List AppBand :=
  [⟨0, 5000, 1⟩, ⟨5000, 10000, 1⟩, ⟨10000, 15000, 1⟩, ⟨15000, 24000, 1⟩]

/-- The JSON form of one app band, as `JSON.stringify` writes it. -/
def appBandJson (b : AppBand) : JVal :=
  JVal.jobj [("startFreq", JVal.jnum b.startFreq), ("endFreq", JVal.jnum b.endFreq),
    ("gain", JVal.jnum b.gain)]

/-- The JSON form of a band list. -/
def bandsJson (l : List AppBand) : JVal :=
  JVal.jarr (l.map appBandJson)

/-- The `useState` initializer of `customBands` (part_000 lines 34-52):
adopt the stored value when it is a non-empty string parsing to a value
with `parsed && parsed.length > 0`; otherwise (key absent, empty or
unparsable text, or the condition failing) fall back to the four default
bands.  `JSON.stringify`/`JSON.parse` round-tripping is the identity on
this model. -/
def customBandsInit (saved : Option JsParse) : JVal :=
  match saved with
  | none => bandsJson getInitialBands
  | some JsParse.emptyStr => bandsJson getInitialBands
  | some JsParse.malformed => bandsJson getInitialBands
  | some (JsParse.valid parsed) =>
    if jsTruthy parsed && jsLengthPos parsed then parsed else bandsJson getInitialBands

/-- The App state the reset handler touches: the `customBands` state (held
in its JSON form, since the initializer can adopt any parsed value) and the
persisted localStorage entry under `'equalizer-custom-bands'`. -/
structure AppBandsState where
  customBands : JVal
  storedBands : Option JsParse

/-- `handleResetBands` (part_000 lines 154-162): `setCustomBands` to the
four defaults and `localStorage.setItem` their JSON (the `try`-wrapped
setItem is modelled as succeeding). -/
def handleResetBands (_st : AppBandsState) : AppBandsState :=
  { customBands := bandsJson getInitialBands
    storedBands := some (JsParse.valid (bandsJson getInitialBands)) }

/-! ## Application root: the equalizer-change handler (part_000, 106-152) -/

/-- The backend response of `updateEqualizerGains`; only the fields the
handler inspects are modelled structurally, the FFT arrays ride along. -/
structure EqResult where
  outputAudioUrl : Option String
  fftReal : List ℚ
  fftImag : List ℚ
  sampleRate : ℚ
  fftSize : ℕ
  deriving Repr, DecidableEq

/-- The slice of App state `handleEqualizerChange` reads or writes. -/
structure EqAppState where
  fftData : Option EqResult
  inputAudioBuffer : Option AudioBuf
  outputAudioBuffer : Option AudioBuf
  isProcessingEqualizer : Bool
  deriving Repr, DecidableEq

/-- `handleEqualizerChange(bands)` (part_000 lines 106-152), with the two
awaited operations injected as values: `backend` is the settled result of
`updateEqualizerGains` and `load url` the settled result of
`loadAudioFile(url)`.  Returns the state after the handler completes and
whether an `alert` was shown.  Without an uploaded file, or with a call
already in flight, the handler returns at once; otherwise the flag is set
for the duration and cleared in `finally`; a rejection lands in the
`catch` (alert) having changed nothing except — when `loadAudioFile` is the
one that failed — the already-stored FFT data. -/
def handleEqualizerChange (st : EqAppState) (hasUploadedFile : Bool)
    (backend : Except String EqResult) (load : String → Except String AudioBuf) :
    EqAppState × Bool :=
  if !hasUploadedFile then (st, false)
  else if st.isProcessingEqualizer then (st, false)
  else
    match backend with
    | Except.error _ => ({ st with isProcessingEqualizer := false }, true)
    | Except.ok result =>
      match result.outputAudioUrl with
      | some url =>
        match load url with
        | Except.ok buf =>
          ({ st with
              fftData := some result
              outputAudioBuffer := some buf
              isProcessingEqualizer := false }, false)
        | Except.error _ =>
          ({ st with fftData := some result, isProcessingEqualizer := false }, true)
      | none =>
        ({ st with
            fftData := some result
            outputAudioBuffer := st.inputAudioBuffer
            isProcessingEqualizer := false }, false)

/-- Example fixture: the idle App state for the equalizer-failure witness. -/
def exEqState : EqAppState :=
  { fftData := none, inputAudioBuffer := none, outputAudioBuffer := none,
    isProcessingEqualizer := false }

/-- Example fixture: an audio loader whose fetch always fails. -/
def exLoad : String → Except String AudioBuf :=
  fun _ => Except.error "offline"

/-! ## Helper lemmas -/

theorem getD_range_map {α : Type} (f : ℕ → α) (d : α) (L i : ℕ) (h : i < L) :
    ((List.range L).map f).getD i d = f i := by
  rw [List.getD_eq_getElem?_getD, List.getElem?_map, List.getElem?_range h]
  rfl

theorem addTrackSamples_length (out chData : List ℚ) (gain : ℚ) (L : ℕ) :
    (addTrackSamples out chData gain L).length = L := by
  simp [addTrackSamples]

theorem addTrackSamples_getD (out chData : List ℚ) (gain : ℚ) (L i : ℕ) (h : i < L) :
    (addTrackSamples out chData gain L).getD i 0 = out.getD i 0 + chData.getD i 0 * gain :=
  getD_range_map _ _ _ _ h

theorem foldl_mixStep_length (ch L : ℕ) (ts : List Track) :
    ∀ acc : List ℚ, acc.length = L → (ts.foldl (mixStep ch L) acc).length = L := by
  induction ts with
  | nil => intro acc hacc; simpa using hacc
  | cons t rest ih =>
    intro acc hacc
    rw [List.foldl_cons]
    apply ih
    cases hb : t.audioBuffer with
    | none => simpa [mixStep, hb] using hacc
    | some b =>
      cases hm : t.muted with
      | false => simp [mixStep, hb, hm, addTrackSamples_length]
      | true => simpa [mixStep, hb, hm] using hacc

theorem foldl_mixStep_getD (ch L i : ℕ) (h : i < L) (ts : List Track) :
    ∀ acc : List ℚ,
      (ts.foldl (mixStep ch L) acc).getD i 0
        = acc.getD i 0 + (ts.map (fun t => mixContribution t ch i)).sum := by
  induction ts with
  | nil => intro acc; simp
  | cons t rest ih =>
    intro acc
    rw [List.foldl_cons, List.map_cons, List.sum_cons, ih]
    cases hb : t.audioBuffer with
    | none =>
      simp [mixStep, hb, mixContribution]
      try ring
    | some b =>
      cases hm : t.muted with
      | false =>
        simp only [mixStep, hb, hm, Bool.not_false, if_true]
        rw [addTrackSamples_getD _ _ _ _ _ h]
        simp [mixContribution, hb, hm, sampleAt]
        try ring
      | true =>
        simp [mixStep, hb, hm, mixContribution]
        try ring

theorem mixChannel_getD (ts : List Track) (ch L i : ℕ) (h : i < L) :
    (mixChannel ts ch L).getD i 0 = (ts.map (fun t => mixContribution t ch i)).sum := by
  unfold mixChannel
  rw [foldl_mixStep_getD ch L i h]
  simp [List.getD_eq_getElem?_getD, List.getElem?_replicate, h]

theorem mixChannel_eq (ts : List Track) (ch L : ℕ) :
    mixChannel ts ch L
      = (List.range L).map (fun i => (ts.map (fun t => mixContribution t ch i)).sum) := by
  have hlen : (mixChannel ts ch L).length = L := by
    unfold mixChannel
    exact foldl_mixStep_length ch L ts _ (by simp)
  apply List.ext_getElem (by simp [hlen])
  intro i h1 h2
  have hi : i < L := by simpa [hlen] using h1
  have := mixChannel_getD ts ch L i hi
  rw [List.getD_eq_getElem _ _ h1] at this
  rw [this]
  have := getD_range_map (fun i => (ts.map (fun t => mixContribution t ch i)).sum) 0 L i hi
  rw [List.getD_eq_getElem _ _ h2] at this
  rw [this]

theorem mixTracks_active (ts : List Track) (prev : Option AudioBuf) (t0 : Track)
    (rest : List Track) (b0 : AudioBuf)
    (hactive : ts.filter (fun t => !t.muted) = t0 :: rest)
    (hb : t0.audioBuffer = some b0) :
    mixTracks ts prev = some
      { sampleRate := b0.sampleRate
        numberOfChannels := b0.numberOfChannels
        length := b0.length
        data := (List.range b0.numberOfChannels).map
          (fun ch => (List.range b0.length).map
            (fun i => ((ts.filter (fun t => !t.muted)).map
              (fun t => mixContribution t ch i)).sum)) } := by
  unfold mixTracks
  rw [hactive]
  have hfun : (fun ch => mixChannel (t0 :: rest) ch b0.length)
      = (fun ch => (List.range b0.length).map
          (fun i => ((t0 :: rest).map (fun t => mixContribution t ch i)).sum)) :=
    funext fun ch => mixChannel_eq (t0 :: rest) ch b0.length
  simp only [hb, hfun]

theorem filter_ne_nil_of_eq_cons {ts : List Track} {t0 : Track} {rest : List Track}
    (hactive : ts.filter (fun t => !t.muted) = t0 :: rest) : ts ≠ [] := by
  intro h
  rw [h] at hactive
  simp at hactive

theorem contribMap_eq (l : List Track) (ch i : ℕ) :
    l.map (fun t => mixContribution t ch i)
      = (l.map stripSolo).map (fun k => mixContributionKey k ch i) := by
  rw [List.map_map]
  rfl

theorem stripSolo_filter_map {ts1 ts2 : List Track}
    (h : ts1.map stripSolo = ts2.map stripSolo) :
    (ts1.filter (fun t => !t.muted)).map stripSolo
      = (ts2.filter (fun t => !t.muted)).map stripSolo := by
  induction ts1 generalizing ts2 with
  | nil =>
    have : ts2 = [] := by
      cases ts2 with
      | nil => rfl
      | cons b l => simp at h
    simp [this]
  | cons a l1 ih =>
    cases ts2 with
    | nil => simp at h
    | cons b l2 =>
      simp only [List.map_cons, List.cons.injEq] at h
      obtain ⟨hab, htail⟩ := h
      have hmuted : a.muted = b.muted := by
        have := congrArg (fun k => k.2.2.2) hab
        simpa [stripSolo] using this
      rw [List.filter_cons, List.filter_cons, hmuted]
      cases b.muted with
      | false => simp only [Bool.not_false, if_true, List.map_cons, hab, ih htail]
      | true => simpa using ih htail

theorem mixTracks_congr_key (ts1 ts2 : List Track) (prev : Option AudioBuf)
    (h : ts1.map stripSolo = ts2.map stripSolo) :
    mixTracks ts1 prev = mixTracks ts2 prev := by
  have hf := stripSolo_filter_map h
  cases h1 : ts1.filter (fun t => !t.muted) with
  | nil =>
    have h2 : ts2.filter (fun t => !t.muted) = [] := by
      rw [h1] at hf
      cases h2 : ts2.filter (fun t => !t.muted) with
      | nil => rfl
      | cons u r => rw [h2] at hf; simp at hf
    unfold mixTracks
    rw [h1, h2]
  | cons t0 r1 =>
    rw [h1] at hf
    cases h2 : ts2.filter (fun t => !t.muted) with
    | nil => rw [h2] at hf; simp at hf
    | cons u0 r2 =>
      rw [h2] at hf
      simp only [List.map_cons, List.cons.injEq] at hf
      obtain ⟨hhead, htail⟩ := hf
      have hbuf : t0.audioBuffer = u0.audioBuffer := by
        have := congrArg (fun k => k.2.1) hhead
        simpa [stripSolo] using this
      cases hb : t0.audioBuffer with
      | none =>
        have hb2 : u0.audioBuffer = none := by rw [← hbuf, hb]
        unfold mixTracks
        rw [h1, h2]
        simp only [hb, hb2]
      | some b0 =>
        have hb2 : u0.audioBuffer = some b0 := by rw [← hbuf, hb]
        rw [mixTracks_active ts1 prev t0 r1 b0 h1 hb,
          mixTracks_active ts2 prev u0 r2 b0 h2 hb2]
        have hmaps : ∀ ch i, ((t0 :: r1).map (fun t => mixContribution t ch i)).sum
            = ((u0 :: r2).map (fun t => mixContribution t ch i)).sum := by
          intro ch i
          rw [contribMap_eq, contribMap_eq]
          simp only [List.map_cons, hhead, htail]
        rw [h1, h2]
        simp only [hmaps]

theorem mixEffect_congr_key (stage : SepStage) (ts1 ts2 : List Track) (prev : Option AudioBuf)
    (h : ts1.map stripSolo = ts2.map stripSolo) :
    mixEffect stage ts1 prev = mixEffect stage ts2 prev := by
  have hlen : ts1.length = ts2.length := by
    have := congrArg List.length h
    simpa using this
  have hnil : ts1 = [] ↔ ts2 = [] := by
    rw [← List.length_eq_zero, ← List.length_eq_zero, hlen]
  have hne : ts1 ≠ [] ↔ ts2 ≠ [] := not_congr hnil
  unfold mixEffect
  by_cases hc : stage = SepStage.separated ∧ ts1 ≠ []
  · rw [if_pos hc, if_pos ⟨hc.1, hne.mp hc.2⟩]
    exact mixTracks_congr_key ts1 ts2 prev h
  · rw [if_neg hc, if_neg (by rintro ⟨hs, h2⟩; exact hc ⟨hs, hne.mpr h2⟩)]

theorem stripSolo_soloToggle (trackId : String) (ts : List Track) :
    (handleSoloToggle trackId ts).map stripSolo = ts.map stripSolo := by
  unfold handleSoloToggle
  rw [List.map_map]
  apply List.map_congr_left
  intro t _
  by_cases h : t.id = trackId <;> simp [h, stripSolo]

/-! ## Claim C2 — the mixing formula -/

/-- C2: counterexample.  The claim says each output sample is the sum over
unmuted stems of `stemSample × stemGain`; but the code applies
`track.gain || 1.0`, and `0` is falsy in JS, so one unmuted stem with gain
0 and sample 1 produces the output sample 1 where the claim's formula
(`specMixSample`) gives `1 × 0 = 0`. -/
theorem mixer_gain_zero_counterexample :
    (mixEffect SepStage.separated
        [{ id := "vocals"
           audioBuffer := some { sampleRate := 44100, numberOfChannels := 1, length := 1, data := [[1]] }
           gain := 0, muted := false, solo := false }] none).map
        (fun b => sampleAt (b.getChannelData 0) 0) = some 1
    ∧ specMixSample
        [{ id := "vocals"
           audioBuffer := some { sampleRate := 44100, numberOfChannels := 1, length := 1, data := [[1]] }
           gain := 0, muted := false, solo := false }] 0 0 = 0
    ∧ (1 : ℚ) ≠ 0 := by
  refine ⟨?_, ?_, by norm_num⟩
  · simp [mixEffect, mixTracks, mixChannel, mixStep, addTrackSamples, jsGainOr1,
      sampleAt, AudioBuf.getChannelData, List.filter]
  · simp [specMixSample, sampleAt, AudioBuf.getChannelData, List.filter]

/-- C2 (amended): when the first unmuted stem has a non-null buffer, the
recomputed output is a fresh buffer whose sample rate, length and channel
count are that stem's, and whose sample at `(ch, i)` is the sum over all
unmuted stems of `stemSample × (stemGain, with a gain of exactly 0 — or an
undefined one — replaced by 1.0 by the JS falsy-or)`, a stem without a
buffer contributing nothing; no clipping or limiting is applied. -/
theorem mixer_output_amended (ts : List Track) (prev : Option AudioBuf) (t0 : Track)
    (rest : List Track) (b0 : AudioBuf)
    (hactive : ts.filter (fun t => !t.muted) = t0 :: rest)
    (hb : t0.audioBuffer = some b0) :
    mixEffect SepStage.separated ts prev = some
      { sampleRate := b0.sampleRate
        numberOfChannels := b0.numberOfChannels
        length := b0.length
        data := (List.range b0.numberOfChannels).map
          (fun ch => (List.range b0.length).map
            (fun i => ((ts.filter (fun t => !t.muted)).map
              (fun t => mixContribution t ch i)).sum)) } := by
  have hts := filter_ne_nil_of_eq_cons hactive
  unfold mixEffect
  rw [if_pos ⟨rfl, hts⟩]
  exact mixTracks_active ts prev t0 rest b0 hactive hb

/-- C2 witness: two unmuted gain-1 stems; the hypotheses hold at this input
and the mixer output is the fresh summed buffer. -/
theorem mixer_output_amended_witness :
    ([exTrackA, exTrackB].filter (fun t => !t.muted) = exTrackA :: [exTrackB])
    ∧ exTrackA.audioBuffer = some exBufA
    ∧ mixEffect SepStage.separated [exTrackA, exTrackB] none = some
        { sampleRate := exBufA.sampleRate
          numberOfChannels := exBufA.numberOfChannels
          length := exBufA.length
          data := (List.range exBufA.numberOfChannels).map
            (fun ch => (List.range exBufA.length).map
              (fun i => (([exTrackA, exTrackB].filter (fun t => !t.muted)).map
                (fun t => mixContribution t ch i)).sum)) } :=
  ⟨by decide, rfl,
    mixer_output_amended [exTrackA, exTrackB] none exTrackA [exTrackB] exBufA (by decide) rfl⟩

/-! ## Claim C7 — all stems muted leaves output untouched -/

/-- C7: with every stem muted, the mixing effect leaves the output buffer
exactly as it was — it is neither replaced by silence nor by any fresh
buffer (the `activeTracks.length === 0` early return). -/
theorem muted_all_keeps_output (ts : List Track) (prev : Option AudioBuf)
    (h : ∀ t ∈ ts, t.muted = true) :
    mixEffect SepStage.separated ts prev = prev := by
  rcases eq_or_ne ts [] with h0 | h0
  · simp [mixEffect, h0]
  · have hf : ts.filter (fun t => !t.muted) = [] := by
      rw [List.filter_eq_nil_iff]
      intro a ha
      simp [h a ha]
    simp [mixEffect, h0, mixTracks, hf]

/-- C7 witness: one muted stem, previous output `none`, output unchanged. -/
theorem muted_all_keeps_output_witness :
    (∀ t ∈ [exTrackMuted], t.muted = true)
    ∧ mixEffect SepStage.separated [exTrackMuted] none = none :=
  ⟨by decide, muted_all_keeps_output _ _ (by decide)⟩

/-! ## Claim C9 — mixing is independent of solo flags -/

/-- C9: two track lists that agree on every stem's id, buffer, gain and
muted flag but differ arbitrarily in solo flags mix to identical output;
in particular toggling any stem's solo flag (which does mutate track
state) never changes the mixed output. -/
theorem mix_solo_independent (ts1 ts2 : List Track) (prev : Option AudioBuf)
    (stage : SepStage) (h : ts1.map stripSolo = ts2.map stripSolo) :
    mixEffect stage ts1 prev = mixEffect stage ts2 prev
    ∧ ∀ (trackId : String) (ts : List Track) (p : Option AudioBuf),
        mixEffect stage (handleSoloToggle trackId ts) p = mixEffect stage ts p :=
  ⟨mixEffect_congr_key stage ts1 ts2 prev h,
   fun trackId ts p => mixEffect_congr_key stage _ ts p (stripSolo_soloToggle trackId ts)⟩

/-- C9 witness: the same stem with and without its solo flag set mixes to
the same output. -/
theorem mix_solo_independent_witness :
    ([exTrackA].map stripSolo = [{ exTrackA with solo := true }].map stripSolo)
    ∧ (mixEffect SepStage.separated [exTrackA] none
          = mixEffect SepStage.separated [{ exTrackA with solo := true }] none
      ∧ ∀ (trackId : String) (ts : List Track) (p : Option AudioBuf),
          mixEffect SepStage.separated (handleSoloToggle trackId ts) p
            = mixEffect SepStage.separated ts p) :=
  ⟨by decide, mix_solo_independent _ _ _ _ (by decide)⟩

/-! ## Claim C3 — debounced slider changes -/

theorem handleSliderChange_calls (hasAudioFile : Bool) (st : EqPanelState) (i : ℕ) (v : ℚ) :
    (handleSliderChange hasAudioFile st i v).calls = st.calls := by
  cases hasAudioFile <;> simp [handleSliderChange]

theorem handleSliderChange_values (hasAudioFile : Bool) (st : EqPanelState) (i : ℕ) (v : ℚ) :
    (handleSliderChange hasAudioFile st i v).values = st.values.set i (clampGain v) := by
  cases hasAudioFile <;> simp [handleSliderChange]

theorem runMoves_calls (hasAudioFile : Bool) (moves : List (ℕ × ℚ)) :
    ∀ st : EqPanelState, (runMoves hasAudioFile st moves).calls = st.calls := by
  induction moves with
  | nil => intro st; rfl
  | cons m rest ih =>
    intro st
    unfold runMoves at ih ⊢
    rw [List.foldl_cons, ih, handleSliderChange_calls]

theorem runMoves_values (hasAudioFile : Bool) (moves : List (ℕ × ℚ)) :
    ∀ st : EqPanelState, (runMoves hasAudioFile st moves).values
      = moves.foldl (fun vs m => vs.set m.1 (clampGain m.2)) st.values := by
  induction moves with
  | nil => intro st; rfl
  | cons m rest ih =>
    intro st
    unfold runMoves at ih ⊢
    rw [List.foldl_cons, List.foldl_cons, ih, handleSliderChange_values]

theorem runMoves_pending (moves : List (ℕ × ℚ)) (h : moves ≠ []) :
    ∀ st : EqPanelState, (runMoves true st moves).pending = true := by
  induction moves with
  | nil => exact absurd rfl h
  | cons m rest ih =>
    intro st
    unfold runMoves at ih ⊢
    rw [List.foldl_cons]
    cases hr : rest with
    | nil => simp [handleSliderChange]
    | cons m2 r2 =>
      rw [← hr]
      exact ih (by simp [hr]) _

/-- C3: any nonempty burst of slider movements, each within the debounce
window of the previous one, produces exactly one `onEqualizerChange`
invocation once the window elapses, and the band list it sends is built by
`buildBands` from the values as updated by the whole burst (clamped to
[0, 2]) — the gains current at the moment the window elapses, not those
captured when it started. -/
theorem debounce_single_call (mode : EqMode) (customBands : List CustomBand) (init : List ℚ)
    (moves : List (ℕ × ℚ)) (h : moves ≠ []) :
    (debounceElapse mode customBands (runMoves true ⟨init, false, []⟩ moves)).calls
      = [buildBands mode customBands
          (moves.foldl (fun vs m => vs.set m.1 (clampGain m.2)) init)]
    ∧ (debounceElapse mode customBands (runMoves true ⟨init, false, []⟩ moves)).calls.length = 1
    ∧ (debounceElapse mode customBands (runMoves true ⟨init, false, []⟩ moves)).pending = false := by
  have hp := runMoves_pending moves h (⟨init, false, []⟩ : EqPanelState)
  have hc := runMoves_calls true moves (⟨init, false, []⟩ : EqPanelState)
  have hv := runMoves_values true moves (⟨init, false, []⟩ : EqPanelState)
  refine ⟨?_, ?_, ?_⟩ <;> simp [debounceElapse, hp, hc, hv]

/-- C3 witness: two rapid movements in music mode; one call is made, with
the second movement's clamped value. -/
theorem debounce_single_call_witness :
    ([((0 : ℕ), (2 : ℚ)), (1, 5)] ≠ [])
    ∧ ((debounceElapse EqMode.music []
          (runMoves true ⟨[1, 1, 1, 1, 1, 1], false, []⟩ [((0 : ℕ), (2 : ℚ)), (1, 5)])).calls
        = [buildBands EqMode.music []
            ([((0 : ℕ), (2 : ℚ)), (1, 5)].foldl
              (fun vs m => vs.set m.1 (clampGain m.2)) [1, 1, 1, 1, 1, 1])]
      ∧ (debounceElapse EqMode.music []
          (runMoves true ⟨[1, 1, 1, 1, 1, 1], false, []⟩ [((0 : ℕ), (2 : ℚ)), (1, 5)])).calls.length = 1
      ∧ (debounceElapse EqMode.music []
          (runMoves true ⟨[1, 1, 1, 1, 1, 1], false, []⟩ [((0 : ℕ), (2 : ℚ)), (1, 5)])).pending = false) :=
  ⟨by decide, debounce_single_call EqMode.music [] [1, 1, 1, 1, 1, 1] _ (by decide)⟩

/-! ## Claim C4 — local DFT bin structure -/

/-- C4: for every buffer and fftSize (positive sample rate assumed for the
ordering) the local DFT returns exactly `fftSize / 2` frequency and
magnitude entries, `frequency[k] = k·sampleRate/fftSize`, the frequencies
are strictly ascending, and every magnitude is non-negative. -/
theorem generateFFTData_spec (b : AudioBuf) (fftSize : ℕ) (hsr : 0 < b.sampleRate) :
    (generateFFTData b fftSize).frequencies.length = fftSize / 2
    ∧ (generateFFTData b fftSize).magnitudes.length = fftSize / 2
    ∧ (∀ k, k < fftSize / 2 →
        (generateFFTData b fftSize).frequencies.getD k 0
          = ((k : ℚ) * (b.sampleRate : ℚ)) / ((fftSize : ℕ) : ℚ))
    ∧ (∀ j k, j < k → k < fftSize / 2 →
        (generateFFTData b fftSize).frequencies.getD j 0
          < (generateFFTData b fftSize).frequencies.getD k 0)
    ∧ (∀ m ∈ (generateFFTData b fftSize).magnitudes, 0 ≤ m) := by
  refine ⟨by simp [generateFFTData, fftFrequencies], by simp [generateFFTData], ?_, ?_, ?_⟩
  · intro k hk
    simp only [generateFFTData, fftFrequencies]
    exact getD_range_map _ _ _ _ hk
  · intro j k hjk hk
    have hj : j < fftSize / 2 := lt_trans hjk hk
    simp only [generateFFTData, fftFrequencies]
    rw [getD_range_map _ _ _ _ hj, getD_range_map _ _ _ _ hk]
    have hF : 0 < fftSize := by omega
    have hFq : (0 : ℚ) < (fftSize : ℚ) := by exact_mod_cast hF
    have hSRq : (0 : ℚ) < (b.sampleRate : ℚ) := by exact_mod_cast hsr
    rw [div_lt_div_iff₀ hFq hFq]
    have hjkq : (j : ℚ) < (k : ℚ) := by exact_mod_cast hjk
    exact mul_lt_mul_of_pos_right (mul_lt_mul_of_pos_right hjkq hSRq) hFq
  · intro m hm
    simp only [generateFFTData, List.mem_map] at hm
    obtain ⟨k, hk, rfl⟩ := hm
    unfold dftMagnitude
    apply div_nonneg (Real.sqrt_nonneg _)
    exact Nat.cast_nonneg fftSize

/-- C4 witness: a concrete 4-sample buffer at sample rate 8. -/
theorem generateFFTData_spec_witness :
    0 < exDftBuf.sampleRate
    ∧ ((generateFFTData exDftBuf 4).frequencies.length = 4 / 2
      ∧ (generateFFTData exDftBuf 4).magnitudes.length = 4 / 2
      ∧ (∀ k, k < 4 / 2 →
          (generateFFTData exDftBuf 4).frequencies.getD k 0
            = ((k : ℚ) * (exDftBuf.sampleRate : ℚ)) / ((4 : ℕ) : ℚ))
      ∧ (∀ j k, j < k → k < 4 / 2 →
          (generateFFTData exDftBuf 4).frequencies.getD j 0
            < (generateFFTData exDftBuf 4).frequencies.getD k 0)
      ∧ (∀ m ∈ (generateFFTData exDftBuf 4).magnitudes, 0 ≤ m)) :=
  ⟨by decide, generateFFTData_spec exDftBuf 4 (by decide)⟩

/-! ## Claim C1 — audiogram-mode frequency mapping -/

/-- C1: counterexample.  The claim says a point is plotted iff its
frequency lies in [125, 8000]; but the client-side variant's filter keeps
every frequency ≥ 125 — e.g. the reachable bin frequency 12000 Hz
(`2·48000/8`) is kept by V1 although it exceeds 8000 (the backend-data
variant drops it). -/
theorem audiogram_band_counterexample :
    audiogramKeepV1 12000 = true
    ∧ ¬((12000 : ℚ) ≤ 8000)
    ∧ (fftFrequencies 48000 8).getD 2 0 = 12000
    ∧ audiogramKeepV2 12000 = false := by
  refine ⟨by decide, by norm_num, ?_, by decide⟩
  rw [fftFrequencies, getD_range_map _ _ _ _ (by norm_num : 2 < 8 / 2)]
  norm_num

/-- C1 (amended): in audiogram mode the backend-data variant plots a point
iff `125 ≤ f ≤ 8000`, while the client-side variant only drops `f < 125`
(frequencies above 8000 are still plotted, past the right edge); kept
points sit at `padding.left + (log10(f/125)/log10(8000/125))·chartWidth`,
so `f = 125` lands on the plot's left edge (x = 50 = padding.left) and
`f = 8000` on its right edge (x = width - 15 = width - padding.right). -/
theorem audiogram_mapping_amended :
    (∀ f : ℚ, audiogramKeepV1 f = true ↔ 125 ≤ f)
    ∧ (∀ f : ℚ, audiogramKeepV2 f = true ↔ 125 ≤ f ∧ f ≤ 8000)
    ∧ (∀ width : ℝ, audiogramX width 125 = 50
        ∧ audiogramX width 8000 = 50 + (width - 50 - 15)) := by
  refine ⟨?_, ?_, ?_⟩
  · intro f
    simp [audiogramKeepV1, not_lt]
  · intro f
    simp [audiogramKeepV2, not_lt, not_or]
  · intro width
    constructor
    · have h1 : ((125 : ℝ) / 125) = 1 := by norm_num
      simp [audiogramX, h1, Real.logb_one]
    · have h64 : Real.logb 10 ((8000 : ℝ) / 125) ≠ 0 := by
        have h : ((8000 : ℝ) / 125) = 64 := by norm_num
        rw [h]
        exact ne_of_gt (Real.logb_pos (by norm_num) (by norm_num))
      unfold audiogramX
      rw [div_self h64, one_mul]

/-! ## Claim C5 — all-zero magnitude guard -/

theorem foldl_maxstep_ge (l : List ℚ) :
    ∀ acc : ℚ, acc ≤ l.foldl (fun acc m => if m > acc then m else acc) 0 ∨
      0 ≤ l.foldl (fun acc m => if m > acc then m else acc) 0 := by
  intro acc
  right
  suffices h : ∀ (l : List ℚ) (a : ℚ), 0 ≤ a →
      0 ≤ l.foldl (fun acc m => if m > acc then m else acc) a by
    exact h l 0 le_rfl
  intro l
  induction l with
  | nil => intro a ha; simpa using ha
  | cons m rest ih =>
    intro a ha
    rw [List.foldl_cons]
    apply ih
    by_cases hm : m > a
    · simp only [hm, if_pos]
      exact le_of_lt (lt_of_le_of_lt ha hm)
    · simpa [hm] using ha

theorem maxMagV2_nonneg (outputMags : List ℚ) (inputMags : Option (List ℚ)) :
    0 ≤ maxMagV2 outputMags inputMags := by
  unfold maxMagV2
  rcases foldl_maxstep_ge (outputMags ++ inputMags.getD []) 0 with h | h <;> simpa using h

theorem foldl_maxstep_all_zero (l : List ℚ) (h : ∀ m ∈ l, m = 0) :
    l.foldl (fun acc m => if m > acc then m else acc) 0 = 0 := by
  induction l with
  | nil => rfl
  | cons m rest ih =>
    rw [List.foldl_cons]
    have hm : m = 0 := h m (by simp)
    subst hm
    simp only [lt_irrefl, if_neg, gt_iff_lt]
    exact ih (fun m hm => h m (by simp [hm]))

/-- C5: counterexample.  The zero-magnitude guard exists only in the
backend-data variant; the client-side variant's `drawSpectrum` reaches its
normalization `m / maxMag` whenever FFT data is present, even when all
magnitudes (and hence `maxMag`) are zero, so normalization is not only
performed when `maxMag > 0`. -/
theorem zero_magnitude_counterexample :
    rendersNormalizationV1 (some { frequencies := [0, 6000], magnitudes := [0, 0] }) = true
    ∧ maxMagV1 [0, 0] none = 0
    ∧ ¬((0 : ℚ) > 0) := by
  refine ⟨rfl, by decide, by norm_num⟩

/-- C5 (amended): the backend-data variant warns and skips the draw when
the magnitude data is entirely zero and only normalizes when its maximum
magnitude is strictly positive; the client-side variant has no such guard
and normalizes whenever its FFT data is present. -/
theorem zero_guard_amended :
    (∀ (inputFftData : Option SpecData) (o : SpecData),
        (∀ m ∈ o.magnitudes, m = 0)
        → (∀ l, inputFftData = some l → ∀ m ∈ l.magnitudes, m = 0)
        → drawSpectrumV2 inputFftData (some o) = DrawOutcome.skippedZeroMax)
    ∧ (∀ (inputFftData : Option SpecData) (o : SpecData),
        drawSpectrumV2 inputFftData (some o) = DrawOutcome.drawn
        → 0 < maxMagV2 o.magnitudes (inputFftData.map SpecData.magnitudes))
    ∧ (∀ fftData : Option SpecData, rendersNormalizationV1 fftData = fftData.isSome) := by
  refine ⟨?_, ?_, fun _ => rfl⟩
  · intro inF o ho hin
    have hzero : maxMagV2 o.magnitudes (inF.map SpecData.magnitudes) = 0 := by
      unfold maxMagV2
      apply foldl_maxstep_all_zero
      intro m hm
      rcases List.mem_append.mp hm with h | h
      · exact ho m h
      · cases hi : inF with
        | none => rw [hi] at h; simp at h
        | some l =>
          rw [hi] at h
          exact hin l hi m (by simpa using h)
    simp [drawSpectrumV2, hzero]
  · intro inF o hdrawn
    by_cases hz : maxMagV2 o.magnitudes (inF.map SpecData.magnitudes) = 0
    · rw [drawSpectrumV2, if_pos hz] at hdrawn
      exact absurd hdrawn (by simp)
    · exact lt_of_le_of_ne (maxMagV2_nonneg _ _) (Ne.symm hz)

/-! ## Claim C6 — backend failure leaves audio and spectra unchanged -/

/-- C6: when the re-equalization request itself fails, the handler alerts
the user, ends with the processing flag back at idle, and leaves the FFT
data and both audio buffers exactly as they were. -/
theorem equalizer_failure_unchanged (st : EqAppState) (load : String → Except String AudioBuf)
    (e : String) (hproc : st.isProcessingEqualizer = false) :
    (handleEqualizerChange st true (Except.error e) load).1.fftData = st.fftData
    ∧ (handleEqualizerChange st true (Except.error e) load).1.inputAudioBuffer
        = st.inputAudioBuffer
    ∧ (handleEqualizerChange st true (Except.error e) load).1.outputAudioBuffer
        = st.outputAudioBuffer
    ∧ (handleEqualizerChange st true (Except.error e) load).1.isProcessingEqualizer = false
    ∧ (handleEqualizerChange st true (Except.error e) load).2 = true := by
  refine ⟨?_, ?_, ?_, ?_, ?_⟩ <;> simp [handleEqualizerChange, hproc]

/-- C6 witness: the idle state with a failing backend call. -/
theorem equalizer_failure_unchanged_witness :
    exEqState.isProcessingEqualizer = false
    ∧ ((handleEqualizerChange exEqState true (Except.error "network error") exLoad).1.fftData
        = exEqState.fftData
      ∧ (handleEqualizerChange exEqState true (Except.error "network error") exLoad).1.inputAudioBuffer
          = exEqState.inputAudioBuffer
      ∧ (handleEqualizerChange exEqState true (Except.error "network error") exLoad).1.outputAudioBuffer
          = exEqState.outputAudioBuffer
      ∧ (handleEqualizerChange exEqState true (Except.error "network error") exLoad).1.isProcessingEqualizer
          = false
      ∧ (handleEqualizerChange exEqState true (Except.error "network error") exLoad).2 = true) :=
  ⟨rfl, equalizer_failure_unchanged exEqState exLoad "network error" rfl⟩

/-! ## Claim C8 — resetting bands -/

/-- C8: from any prior state, resetting the bands sets `customBands` to
exactly the four default bands `[0,5000], [5000,10000], [10000,15000],
[15000,24000]` with gain 1 each, and overwrites the persisted
localStorage entry with that same list. -/
theorem reset_bands_defaults (st : AppBandsState) :
    (handleResetBands st).customBands
      = JVal.jarr
          [JVal.jobj [("startFreq", JVal.jnum 0), ("endFreq", JVal.jnum 5000),
             ("gain", JVal.jnum 1)],
           JVal.jobj [("startFreq", JVal.jnum 5000), ("endFreq", JVal.jnum 10000),
             ("gain", JVal.jnum 1)],
           JVal.jobj [("startFreq", JVal.jnum 10000), ("endFreq", JVal.jnum 15000),
             ("gain", JVal.jnum 1)],
           JVal.jobj [("startFreq", JVal.jnum 15000), ("endFreq", JVal.jnum 24000),
             ("gain", JVal.jnum 1)]]
    ∧ (handleResetBands st).storedBands
        = some (JsParse.valid (handleResetBands st).customBands) :=
  ⟨rfl, rfl⟩

/-! ## Claim C10 — the startup band initializer -/

/-- C10: counterexample.  The claim says anything that is not a non-empty
array falls back to the defaults; but a stored non-empty JSON string (here
`"ab"`) is truthy with `.length > 0`, so the initializer adopts it as the
band list instead of the defaults. -/
theorem bands_init_counterexample :
    customBandsInit (some (JsParse.valid (JVal.jstr "ab"))) = JVal.jstr "ab"
    ∧ customBandsInit (some (JsParse.valid (JVal.jstr "ab"))) ≠ bandsJson getInitialBands := by
  constructor
  · rfl
  · intro hcontra
    rw [show customBandsInit (some (JsParse.valid (JVal.jstr "ab"))) = JVal.jstr "ab" from rfl]
      at hcontra
    exact JVal.noConfusion hcontra

/-- C10 (amended): the startup list equals the parsed stored value exactly
when that value is JS-truthy with a positive `length` (so non-empty arrays
as the claim says, but also non-empty strings and objects with a positive
numeric `length`); with the key absent, the stored text empty or
unparsable, or the parsed value failing that test — in particular an empty
array — it equals the four default bands; so startup always yields either
the adopted stored value or the four defaults, never zero bands. -/
theorem bands_init_amended : ∀ v : JVal,
    (∀ l : List JVal, v = JVal.jarr l →
        customBandsInit (some (JsParse.valid v))
          = if l.length = 0 then bandsJson getInitialBands else JVal.jarr l)
    ∧ (customBandsInit none = bandsJson getInitialBands
      ∧ customBandsInit (some JsParse.malformed) = bandsJson getInitialBands
      ∧ customBandsInit (some JsParse.emptyStr) = bandsJson getInitialBands)
    ∧ (customBandsInit (some (JsParse.valid v)) = v
      ∨ customBandsInit (some (JsParse.valid v)) = bandsJson getInitialBands)
    ∧ ((jsTruthy v = false ∨ jsLengthPos v = false) →
        customBandsInit (some (JsParse.valid v)) = bandsJson getInitialBands) := by
  intro v
  refine ⟨?_, ⟨rfl, rfl, rfl⟩, ?_, ?_⟩
  · rintro l rfl
    cases l with
    | nil => simp [customBandsInit, jsTruthy, jsLengthPos]
    | cons a t => simp [customBandsInit, jsTruthy, jsLengthPos]
  · by_cases h : (jsTruthy v && jsLengthPos v) = true
    · left
      simp [customBandsInit, h]
    · right
      simp [customBandsInit, h]
  · intro h
    have hfalse : (jsTruthy v && jsLengthPos v) = false := by
      rcases h with h | h <;> simp [h]
    simp [customBandsInit, hfalse]

end SignalEq



